import Mathlib

/-!
Shallow embedding of the scraping-and-caching pipeline of
`src/app/api/utils/scraper.ts` (the `scrapeURL` / `scrapeAndSearch`
pipeline with its Redis-backed cache, render-method classifier, page
fetchers, content extractor and search resolver).

Modelling conventions, stated once here:

* Strings are sequences of abstract characters (`String` / `List Char`);
  `s.slice(0, n)` is `List.take n`.
* External I/O (HTTP GET, headless-browser rendering, Redis writes) is a
  deterministic environment `Env`; a `none` / `Bool` flag in `Env` records
  that the corresponding JavaScript promise rejects.  Spec section 7 lists
  network timeouts, browser launch or navigation failure and an unreachable
  cache store as the error sources, and these are exactly the failure
  switches `Env` provides.
* External libraries with a stable documented meaning (the cheerio HTML
  parsing, `encodeURIComponent` / `decodeURIComponent`, WHATWG `new URL`)
  are environment functions; the logic the repository itself builds over their results
  (selector scoring, cache-key construction, truncation, error wrapping) is
  embedded concretely from the source.
* A thrown / rejected JavaScript exception that escapes a modelled function
  is an explicit `none` ("the call did not return a value"); cache state
  already mutated before the throw is preserved, as a real Redis store
  would be.
-/

namespace Scraper

/-! ### Text utilities (`cleanText`, JS `slice`, JS `includes`) -/

/-- The whitespace class used by the `\s` regex and `String.prototype.trim`
(restricted to the ASCII whitespace characters that matter here). -/
def isWS (c : Char) : Bool :=
  c == ' ' || c == '\t' || c == '\n' || c == '\r' || c == '\x0b' || c == '\x0c'

/-- One pass of `text.replace(/\s+/g, ' ')`: every maximal run of whitespace
becomes a single space.  The flag records whether the previous character was
part of a whitespace run. -/
def collapseWS : Bool → List Char → List Char
  | _, [] => []
  | prev, c :: rest =>
    if isWS c then
      (if prev then collapseWS true rest else ' ' :: collapseWS true rest)
    else c :: collapseWS false rest

/-- One pass of `text.replace(/\n+/g, ' ')` (a no-op after `collapseWS`,
kept because the source applies both replacements in sequence). -/
def collapseNL : Bool → List Char → List Char
  | _, [] => []
  | prev, c :: rest =>
    if c == '\n' then
      (if prev then collapseNL true rest else ' ' :: collapseNL true rest)
    else c :: collapseNL false rest

/-- JavaScript `String.prototype.trim`. -/
def trimChars (l : List Char) : List Char :=
  ((l.dropWhile isWS).reverse.dropWhile isWS).reverse

/-- The function `cleanText` from scraper.ts:
`text.replace(/\s+/g, ' ').replace(/\n+/g, ' ').trim()`. -/
def cleanText (s : String) : String :=
  ⟨trimChars (collapseNL false (collapseWS false s.data))⟩

/-- JavaScript `s.slice(0, n)`. -/
def jsSlice (s : String) (n : Nat) : String := ⟨s.data.take n⟩

/-- JavaScript `hay.includes(pat)` (substring test). -/
def containsSub (hay pat : String) : Bool :=
  hay.data.tails.any (fun t => pat.data.isPrefixOf t)

/-- Split a character list at the first occurrence of `sep`, returning the
part strictly before it and the part strictly after it (`none` when `sep`
does not occur). -/
def splitFirst (sep : List Char) : List Char → Option (List Char × List Char)
  | [] => if sep.isEmpty then some ([], []) else none
  | c :: rest =>
    if sep.isPrefixOf (c :: rest) then some ([], List.drop sep.length (c :: rest))
    else (splitFirst sep rest).map (fun p => (c :: p.1, p.2))

/-- JavaScript `s.split(sep)[1]` (the text between the first and the second
occurrence of `sep`; `none` when `sep` does not occur at all). -/
def splitIndex1 (sep l : List Char) : Option (List Char) :=
  (splitFirst sep l).map (fun p => ((splitFirst sep p.2).map (·.1)).getD p.2)

/-- JavaScript `s.split(sep)[0]` (the text before the first occurrence of
`sep`, or all of `s` when it does not occur). -/
def splitIndex0 (sep l : List Char) : List Char :=
  ((splitFirst sep l).map (·.1)).getD l

/-- JavaScript `Array.prototype.join(" ")`. -/
def joinSpace : List String → String
  | [] => ""
  | [s] => s
  | s :: rest => s ++ " " ++ joinSpace rest

/-! ### DOM model

cheerio (an external HTML library) parses markup into a DOM; the DOM is
modelled as a forest of nodes, and the selector operations the repository
uses (`$(sel).text()`, `$(sel).attr(k)`, `.find`, `.remove`) are given
their cheerio meaning over that forest. -/

/-- A DOM node: a text node, or an element with a tag name, an attribute
list and children. -/
inductive Node where
  | text : String → Node
  | elem : String → List (String × String) → List Node → Node

/-- Attribute lookup on an attribute list. -/
def attrOf (attrs : List (String × String)) (k : String) : Option String :=
  (attrs.find? (fun p => p.1 == k)).map (·.2)

/-- Split a class attribute value on whitespace runs. -/
def splitWSAux : List Char → List Char → List (List Char)
  | [], acc => if acc.isEmpty then [] else [acc.reverse]
  | c :: rest, acc =>
    if isWS c then
      (if acc.isEmpty then splitWSAux rest [] else acc.reverse :: splitWSAux rest [])
    else splitWSAux rest (c :: acc)

/-- Does the `class` attribute of `attrs` contain the class `c`? -/
def hasClass (attrs : List (String × String)) (c : String) : Bool :=
  match attrOf attrs "class" with
  | some v => (splitWSAux v.data []).contains c.data
  | none => false

/-- The selector fragments the repository uses: a tag name (`article`), a
class (`.content`), an id (`#content`), a tag with an exact attribute
(`meta[name="description"]`), an exact attribute (`[role="main"]`), and a
tag with a class (`div.g`). -/
inductive Sel where
  | tagName : String → Sel
  | className : String → Sel
  | idName : String → Sel
  | tagAttr : String → String → String → Sel
  | attrEq : String → String → Sel
  | tagClass : String → String → Sel

/-- Does an element with tag `tag` and attributes `attrs` match `s`? -/
def matchesSel : Sel → String → List (String × String) → Bool
  | Sel.tagName t, tag, _ => tag == t
  | Sel.className c, _, attrs => hasClass attrs c
  | Sel.idName i, _, attrs => attrOf attrs "id" == some i
  | Sel.tagAttr t k v, tag, attrs => tag == t && attrOf attrs k == some v
  | Sel.attrEq k v, _, attrs => attrOf attrs k == some v
  | Sel.tagClass t c, tag, attrs => tag == t && hasClass attrs c

mutual

/-- The text of a node: cheerio `.text()` of a single node (all descendant
text, concatenated in document order). -/
def nodeText : Node → String
  | Node.text s => s
  | Node.elem _ _ cs => forestText cs
termination_by structural n => n

/-- The concatenated text of a forest of nodes. -/
def forestText : List Node → String
  | [] => ""
  | n :: rest => nodeText n ++ forestText rest
termination_by structural l => l

end

mutual

/-- Removal, `$("t1, t2, ...").remove()`, for a list of tag names: drop every element
whose tag is in `tags`, together with its whole subtree. -/
def removeForest (tags : List String) : List Node → List Node
  | [] => []
  | n :: rest => removeNode tags n ++ removeForest tags rest
termination_by structural l => l

/-- Removal on a single node: dropped entirely when its tag is listed,
kept with its subtree filtered otherwise. -/
def removeNode (tags : List String) : Node → List Node
  | Node.text s => [Node.text s]
  | Node.elem t a cs =>
    if tags.contains t then [] else [Node.elem t a (removeForest tags cs)]
termination_by structural n => n

end

mutual

/-- All elements of the forest matching `s`, in document (preorder) order,
nested matches included — the cheerio `$(sel)` selection. -/
def selectForest (s : Sel) : List Node → List Node
  | [] => []
  | n :: rest => selectNode s n ++ selectForest s rest
termination_by structural l => l

/-- The matches of `s` within a single node (the node itself, then its
descendants in document order). -/
def selectNode (s : Sel) : Node → List Node
  | Node.text _ => []
  | Node.elem t a cs =>
    (if matchesSel s t a then [Node.elem t a cs] else []) ++ selectForest s cs
termination_by structural n => n

end

/-- cheerio `$(sel).text()`: concatenated text of every matching element. -/
def selText (s : Sel) (doc : List Node) : String :=
  String.join ((selectForest s doc).map nodeText)

/-- cheerio `$(sel).attr(k)`: attribute `k` of the first matching element
(`none` when there is no match or the element lacks the attribute). -/
def selAttr (s : Sel) (doc : List Node) (k : String) : Option String :=
  (selectForest s doc).head?.bind fun n =>
    match n with
    | Node.elem _ a _ => attrOf a k
    | Node.text _ => none

/-- The children of a node (`$(el).find(sel)` searches these subtrees). -/
def childrenOf : Node → List Node
  | Node.text _ => []
  | Node.elem _ _ cs => cs

/-! ### The domain entity -/

/-- The `headings` sub-record of `ScrapedContent`. -/
structure Headings where
  h1 : String
  h2 : String
deriving DecidableEq, Repr

/-- The interface `ScrapedContent` from scraper.ts: the structured record a scrape
produces.  `error = none` models the JavaScript `error: null`. -/
structure ScrapedContent where
  url : String
  title : String
  headings : Headings
  metaDescription : String
  content : String
  error : Option String
deriving DecidableEq, Repr

/-! ### Serialization (`JSON.stringify` / `JSON.parse` of a ScrapedContent)

The structured-content cache stores `JSON.stringify(scrapedContent)` and a
cache hit returns `JSON.parse(cached)`.  `JSON.stringify` / `JSON.parse`
are external built-ins; what the pipeline relies on is that parsing a
stringified record yields the record back.  They are modelled by a concrete
injective encoding of the fixed record shape with a proved round-trip:
seven `|`-separated fields (with `\`-escaping inside a field), the last
field carrying the `error` tag. -/

/-- Escape one character of a field. -/
def escChar (c : Char) : List Char :=
  if c == '\\' || c == '|' then ['\\', c] else [c]

/-- Escape a whole field. -/
def esc : List Char → List Char
  | [] => []
  | c :: rest => escChar c ++ esc rest

/-- Read one escaped field up to an unescaped `|` (consumed) or the end of
the input; fails on a dangling escape character. -/
def readField : List Char → Option (List Char × List Char)
  | [] => some ([], [])
  | c :: rest =>
    if c = '\\' then
      match rest with
      | [] => none
      | d :: rest2 => (readField rest2).map (fun p => (d :: p.1, p.2))
    else if c = '|' then some ([], rest)
    else (readField rest).map (fun p => (c :: p.1, p.2))

/-- Encode the `error` field: `none` is the tag `n`, `some e` is the tag
`s` followed by the message. -/
def encErr : Option String → List Char
  | none => ['n']
  | some e => 's' :: e.data

/-- Decode the `error` field. -/
def decErr : List Char → Option (Option String)
  | ['n'] => some none
  | 's' :: rest => some (some ⟨rest⟩)
  | _ => none

/-- Join escaped fields with `|`. -/
def encFields : List (List Char) → List Char
  | [] => []
  | [f] => esc f
  | f :: rest => esc f ++ '|' :: encFields rest

/-- Model of `JSON.stringify(s)` for a ScrapedContent. -/
def encodeSC (s : ScrapedContent) : String :=
  ⟨encFields [s.url.data, s.title.data, s.headings.h1.data, s.headings.h2.data,
              s.metaDescription.data, s.content.data, encErr s.error]⟩

/-- Model of `JSON.parse(str)` at the ScrapedContent shape; `none` models a
thrown parse error. -/
def decodeSC (str : String) : Option ScrapedContent := do
  let (u, r1) ← readField str.data
  let (t, r2) ← readField r1
  let (g1, r3) ← readField r2
  let (g2, r4) ← readField r3
  let (m, r5) ← readField r4
  let (co, r6) ← readField r5
  let (e, r7) ← readField r6
  if r7.isEmpty then
    let err ← decErr e
    pure ⟨⟨u⟩, ⟨t⟩, ⟨⟨g1⟩, ⟨g2⟩⟩, ⟨m⟩, ⟨co⟩, err⟩
  else none

/-! ### The cache (Upstash Redis, `redis.get` / `redis.set` with `ex`)

Entries carry an absolute expiry deadline; a `get` at time `now` only sees
entries whose deadline lies in the future, and a `set` with expiry `ex`
stores the deadline `now + ex` — the TTL semantics of Redis `SET ... EX`.
Pipeline functions take the current time `now : Nat` (seconds) as a
parameter. -/

/-- The key-value store: a list of (key, value, deadline) entries with at
most one live entry per key (a `set` replaces). -/
structure Cache where
  entries : List (String × String × Nat)
deriving DecidableEq, Repr

/-- The read `redis.get(k)` at time `now`. -/
def Cache.get (c : Cache) (now : Nat) (k : String) : Option String :=
  match c.entries.find? (fun e => e.1 == k) with
  | some (_, v, d) => if now < d then some v else none
  | none => none

/-- The write `redis.set(k, v, \x7b ex \x7d)` at time `now`. -/
def Cache.set (c : Cache) (now : Nat) (k v : String) (ex : Nat) : Cache :=
  ⟨(k, v, now + ex) :: c.entries.filter (fun e => e.1 != k)⟩

/-- The constant `MAX_CACHE_SIZE` (scraper.ts line 16). -/
def MAX_CACHE_SIZE : Nat := 1000000

/-- The constant `CACHE_EXPIRATION` — 7 days in seconds (scraper.ts line 17). -/
def CACHE_EXPIRATION : Nat := 7 * 24 * 60 * 60

/-! ### Environment and instrumentation -/

/-- The deterministic environment a run executes against.  Each field
models one external effect of scraper.ts:

* `httpGet url` — the body delivered by `axios.get(url)`, or `none` when
  the request fails (network error / timeout); used by the classifier, the
  lightweight fetcher and the search resolver.
* `launchFails` — `puppeteer.launch` rejects (browser cannot start).
* `navFails url` — some step of the browser session after a successful
  launch (`newPage`, `setUserAgent`, `goto`, `content`) rejects.
* `rendered url` — `page.content()` after a successful navigation.
* `setFails k` — `redis.set` on key `k` rejects (cache store unreachable);
  a failed set stores nothing.  `redis.get` is modelled as always
  succeeding: a failing get on the structured key would make `scrapeURL`
  itself reject before its try block, a path outside every claim.
* `parseHtml markup` — the cheerio parse of raw markup into a DOM forest.
* `parseURL q` — `new URL(q)`: `none` when the constructor throws,
  otherwise `some (new URL(q).toString())`, the normalized form.
* `encodeURIComponent` / `decodeURIComponent` — the JS built-ins.

The user-agent rotation (`Math.random` over `USER_AGENTS`) only varies a
request header and is absorbed into `httpGet` / `rendered`. -/
structure Env where
  httpGet : String → Option String
  launchFails : Bool
  navFails : String → Bool
  rendered : String → String
  setFails : String → Bool
  parseHtml : String → List Node
  parseURL : String → Option String
  encodeURIComponent : String → String
  decodeURIComponent : String → String

/-- Instrumentation: how much classification, network, browser and search
work a call performed. -/
structure Trace where
  classifierCalls : Nat
  httpFetches : Nat
  browserLaunches : Nat
  searchCalls : Nat
deriving DecidableEq, Repr

/-- The empty trace. -/
def Trace.zero : Trace := ⟨0, 0, 0, 0⟩

/-- Pointwise trace accumulation. -/
instance : Add Trace :=
  ⟨fun a b => ⟨a.classifierCalls + b.classifierCalls, a.httpFetches + b.httpFetches,
               a.browserLaunches + b.browserLaunches, a.searchCalls + b.searchCalls⟩⟩

/-! ### Render-method classifier and page fetchers -/

/-- The two strategies. -/
inductive Method where
  | cheerio : Method
  | puppeteer : Method
deriving DecidableEq, Repr

/-- The client-side-rendering indicator substrings of
`determineScrapingMethod` (scraper.ts lines 83-94). -/
def NEEDS_PUPPETEER : List String :=
  ["window.__INITIAL_STATE__", "window.__NUXT__", "window.__NEXT_DATA__",
   "react", "angular", "vue", "_next/static", "data-reactroot", "data-v-",
   "<script src="]

/-- The classifier `determineScrapingMethod` (scraper.ts lines 72-103): fetch the page
with a plain GET; return `puppeteer` when any indicator occurs in the body
and `cheerio` otherwise; on fetch failure the catch defaults to
`puppeteer`. -/
def determineScrapingMethod (env : Env) (url : String) : Method :=
  match env.httpGet url with
  | some html =>
    if NEEDS_PUPPETEER.any (fun ind => containsSub html ind) then Method.puppeteer
    else Method.cheerio
  | none => Method.puppeteer

/-- The outcome of a page-fetch strategy.  `html = none` models an
exception propagating to the caller; `launched` / `closed` record whether a
browser instance was launched and whether it was torn down. -/
structure FetchOut where
  html : Option String
  launched : Bool
  closed : Bool
deriving DecidableEq, Repr

/-- The fetcher `scrapeWithPuppeteer` (scraper.ts lines 164-189).  `puppeteer.launch`
runs before the try block, so a launch failure propagates; every in-try
failure is caught and degrades to `""`, and the finally block closes the
browser on both the success and the caught path. -/
def scrapeWithPuppeteer (env : Env) (url : String) : FetchOut :=
  if env.launchFails then ⟨none, false, false⟩
  else if env.navFails url then ⟨some "", true, true⟩
  else ⟨some (env.rendered url), true, true⟩

/-- The fetcher `scrapeWithCheerio` (scraper.ts lines 197-210): one GET inside a try;
any failure is caught and degrades to `""`. -/
def scrapeWithCheerio (env : Env) (url : String) : FetchOut :=
  match env.httpGet url with
  | some body => ⟨some body, false, false⟩
  | none => ⟨some "", false, false⟩

/-- The markup the fetch step of `getRawHtml` delivers for `url` (selected
by the verdict of the classifier); `none` models the fetcher throwing. -/
def fetchRaw (env : Env) (url : String) : Option String :=
  match determineScrapingMethod env url with
  | Method.puppeteer => (scrapeWithPuppeteer env url).html
  | Method.cheerio => (scrapeWithCheerio env url).html

/-- The trace of one classify-then-fetch round. -/
def fetchTrace (env : Env) (url : String) : Trace :=
  match determineScrapingMethod env url with
  | Method.puppeteer => ⟨1, 1, 1, 0⟩
  | Method.cheerio => ⟨1, 2, 0, 0⟩

/-! ### Cache layer -/

/-- The result of `getRawHtml`: the returned markup (`none` when an
exception propagates), the cache afterwards, and the work performed. -/
structure RawOut where
  html : Option String
  cache : Cache
  tr : Trace
deriving Repr

/-- The cache layer `getRawHtml` (scraper.ts lines 218-249): check the raw-markup cache;
on a miss classify and fetch; only when the fetch produced non-empty
markup, store it truncated to `MAX_CACHE_SIZE` with a 7-day expiry; return
the untruncated markup.  A fetcher exception or a rejected `redis.set`
propagates (`html = none`). -/
def getRawHtml (env : Env) (now : Nat) (c : Cache) (url : String) : RawOut :=
  let cacheKey := "scrapeRawHtml:" ++ url
  match c.get now cacheKey with
  | some cached => ⟨some cached, c, Trace.zero⟩
  | none =>
    match fetchRaw env url with
    | none => ⟨none, c, fetchTrace env url⟩
    | some rawHtml =>
      if rawHtml = "" then ⟨some "", c, fetchTrace env url⟩
      else if env.setFails cacheKey then ⟨none, c, fetchTrace env url⟩
      else
        ⟨some rawHtml,
         c.set now cacheKey (jsSlice rawHtml MAX_CACHE_SIZE) CACHE_EXPIRATION,
         fetchTrace env url⟩

/-! ### Content extractor -/

/-- The tags `extractMainContent` strips before scoring
(`$("script, style, header, footer, aside, nav").remove()`). -/
def STRIP_TAGS : List String := ["script", "style", "header", "footer", "aside", "nav"]

/-- The candidate main-content selectors of `extractMainContent`
(scraper.ts line 264). -/
def CONTENT_SELECTORS : List Sel :=
  [Sel.tagName "article", Sel.tagName "main", Sel.className "content",
   Sel.idName "content", Sel.className "post", Sel.className "article",
   Sel.attrEq "role" "main"]

/-- The extractor `extractMainContent` (scraper.ts lines 257-281): strip unwanted
elements, keep the single longest cleaned selector text (strictly longer
replaces), and fall back to the cleaned body text when nothing matched. -/
def extractMainContent (env : Env) (rawHtml : String) : String :=
  let doc := removeForest STRIP_TAGS (env.parseHtml rawHtml)
  let mainText := CONTENT_SELECTORS.foldl
    (fun acc sel =>
      let text := cleanText (selText sel doc)
      if text.length > acc.length then text else acc) ""
  if mainText = "" then cleanText (selText (Sel.tagName "body") doc) else mainText

/-! ### Search resolver -/

/-- One parsed search result. -/
structure SearchResult where
  title : String
  link : String
deriving DecidableEq, Repr

/-- The search-results URL `getTopResultsFromGoogle` fetches. -/
def googleSearchUrl (env : Env) (query : String) : String :=
  "https://www.google.com/search?q=" ++ env.encodeURIComponent query

/-- The link rewriting of `getTopResultsFromGoogle` (scraper.ts lines
136-139): a `/url?q=...` redirect link is replaced by the decoded target
(`decodeURIComponent(link.split("/url?q=")[1].split("&")[0])`). -/
def rewriteLink (env : Env) (link : String) : String :=
  if link.data.take 7 = "/url?q=".data then
    match splitIndex1 "/url?q=".data link.data with
    | some mid => env.decodeURIComponent ⟨splitIndex0 "&".data mid⟩
    | none => link
  else link

/-- The body of the `$("div.g").each` callback (scraper.ts lines 130-148):
extract title and link, rewrite redirect links, keep results with a
non-empty title and a link not mentioning google.com, and stop iterating
once `maxResults` results are collected (the callback returns
`searchResults.length < maxResults`). -/
def collectResults (env : Env) : List Node → Nat → List SearchResult → List SearchResult
  | [], _, acc => acc
  | el :: rest, maxR, acc =>
    let title := String.join ((selectForest (Sel.tagName "h3") (childrenOf el)).map nodeText)
    let link0 := (selectForest (Sel.tagName "a") (childrenOf el)).head?.bind fun n =>
      match n with
      | Node.elem _ a _ => attrOf a "href"
      | Node.text _ => none
    let acc2 :=
      match link0 with
      | none => acc
      | some l0 =>
        let link := rewriteLink env l0
        if title ≠ "" ∧ link ≠ "" ∧ ¬ containsSub link "google.com" then
          acc ++ [⟨title, link⟩]
        else acc
    if acc2.length < maxR then collectResults env rest maxR acc2 else acc2

/-- The resolver `getTopResultsFromGoogle` (scraper.ts lines 112-156): fetch the search
page (any failure is caught and yields `[]`), walk the `div.g` result
blocks, and return at most `maxResults` results. -/
def getTopResultsFromGoogle (env : Env) (query : String) (maxResults : Nat) :
    List SearchResult :=
  match env.httpGet (googleSearchUrl env query) with
  | none => []
  | some html =>
    let doc := env.parseHtml html
    (collectResults env (selectForest (Sel.tagClass "div" "g") doc) maxResults []).take
      maxResults

/-- The function `searchGoogle` (scraper.ts lines 289-301): the link of the top result, or
`none` when there are no results (or on an error, caught internally). -/
def searchGoogle (env : Env) (query : String) : Option String :=
  (getTopResultsFromGoogle env query 1).head?.map (·.link)

/-- The trace of one `searchGoogle` call. -/
def searchTrace : Trace := ⟨0, 1, 0, 1⟩

/-! ### Orchestrator -/

/-- The result of `scrapeURL` / `scrapeAndSearch`: the returned record
(`none` when an exception propagates to the caller), the cache afterwards,
and the work performed. -/
structure ScrapeOut where
  res : Option ScrapedContent
  cache : Cache
  tr : Trace
deriving Repr

/-- A ScrapedContent with only `url` and `error` set — the shape the
default-initialized record has when an error path returns it before any
field was populated. -/
def emptySC (url err : String) : ScrapedContent :=
  ⟨url, "", ⟨"", ""⟩, "", "", some err⟩

/-- Steps 2-3 of `scrapeURL` (scraper.ts lines 341-365): parse the markup,
extract and clean title, meta description and headings, and truncate the
extracted main content to 40,000 characters.  The source cleans the title
twice (`cleanText($("title").text())` and then `cleanText(title)` again)
and joins the heading texts with a space before cleaning; both quirks are
kept. -/
def parseScraped (env : Env) (url rawHtml : String) : ScrapedContent :=
  let doc := env.parseHtml rawHtml
  let title := cleanText (selText (Sel.tagName "title") doc)
  let metaDescription :=
    cleanText ((selAttr (Sel.tagAttr "meta" "name" "description") doc "content").getD "")
  let h1Text := joinSpace ((selectForest (Sel.tagName "h1") doc).map nodeText)
  let h2Text := joinSpace ((selectForest (Sel.tagName "h2") doc).map nodeText)
  ⟨url, cleanText title, ⟨cleanText h1Text, cleanText h2Text⟩, metaDescription,
   jsSlice (extractMainContent env rawHtml) 40000, none⟩

/-- The pipeline `scrapeURL` (scraper.ts lines 312-380).  On a structured-cache hit,
return `JSON.parse(cached)` (a parse failure propagates: the hit path runs
before the try block).  On a miss: fetch raw markup through `getRawHtml`
(an exception there is caught, returning the still-empty record with
`error` set); an empty markup returns the "Failed to fetch raw HTML."
record; otherwise extract title, meta description, headings and truncated
main content, then store the serialized record — and when that store
rejects, the catch returns the *already populated* record with `error`
set. -/
def scrapeURL (env : Env) (now : Nat) (c : Cache) (url : String) : ScrapeOut :=
  let cacheKey := "scrapedContent:" ++ url
  match c.get now cacheKey with
  | some cached =>
    match decodeSC cached with
    | some s => ⟨some s, c, Trace.zero⟩
    | none => ⟨none, c, Trace.zero⟩
  | none =>
    match getRawHtml env now c url with
    | ⟨none, c2, tr⟩ => ⟨some (emptySC url "Failed to scrape URL"), c2, tr⟩
    | ⟨some rawHtml, c2, tr⟩ =>
      if rawHtml = "" then ⟨some (emptySC url "Failed to fetch raw HTML."), c2, tr⟩
      else
        let full := parseScraped env url rawHtml
        if env.setFails cacheKey then
          ⟨some { full with error := some "Failed to scrape URL" }, c2, tr⟩
        else ⟨some full, c2.set now cacheKey (encodeSC full) CACHE_EXPIRATION, tr⟩

/-- The record `scrapeAndSearch` returns when the search resolver yields
nothing (scraper.ts lines 403-410). -/
def noResultsSC : ScrapedContent :=
  ⟨"", "", ⟨"", ""⟩, "", "", some "No results found for the query"⟩

/-- The search-then-scrape tail of `scrapeAndSearch` (scraper.ts lines
399-423): resolve the query; with no result return `noResultsSC`;
otherwise scrape the top link (an exception there propagates — this call
is outside any try) and rewrap an errored result with the generic
"Failed to scrape the content" message. -/
def scrapeAndSearchTail (env : Env) (now : Nat) (c : Cache) (query : String)
    (tr0 : Trace) : ScrapeOut :=
  match searchGoogle env query with
  | none => ⟨some noResultsSC, c, tr0 + searchTrace⟩
  | some topUrl =>
    let out := scrapeURL env now c topUrl
    match out.res with
    | none => ⟨none, out.cache, tr0 + searchTrace + out.tr⟩
    | some sc =>
      if sc.error.isSome then
        ⟨some { sc with error := some "Failed to scrape the content" }, out.cache,
         tr0 + searchTrace + out.tr⟩
      else ⟨some sc, out.cache, tr0 + searchTrace + out.tr⟩

/-- The orchestrator `scrapeAndSearch` (scraper.ts lines 388-424).  The try block wraps
both `new URL(query)` and the `return await scrapeURL(...)`: when the
query parses as a URL the call delegates to `scrapeURL` on the normalized
`toString()` form, and only when the constructor throws — or the awaited
`scrapeURL` itself rejects — does control fall through to the search
resolver. -/
def scrapeAndSearch (env : Env) (now : Nat) (c : Cache) (query : String) : ScrapeOut :=
  match env.parseURL query with
  | some u =>
    let out := scrapeURL env now c u
    match out.res with
    | some _ => out
    | none => scrapeAndSearchTail env now out.cache query out.tr
  | none => scrapeAndSearchTail env now c query Trace.zero

/-! ### Helper lemmas: serialization round-trip -/

theorem readField_nil : readField [] = some ([], []) := by
  rw [readField.eq_def]

theorem readField_sep (rest : List Char) : readField ('|' :: rest) = some ([], rest) := by
  rw [readField.eq_def]
  rfl

theorem readField_escaped (c : Char) (rest : List Char) :
    readField ('\\' :: c :: rest) = (readField rest).map (fun p => (c :: p.1, p.2)) := rfl

theorem readField_other (c : Char) (h1 : c ≠ '\\') (h2 : c ≠ '|') (rest : List Char) :
    readField (c :: rest) = (readField rest).map (fun p => (c :: p.1, p.2)) := by
  rw [readField.eq_def]
  simp only [if_neg h1, if_neg h2]

theorem readField_esc_append (f rest : List Char) :
    readField (esc f ++ '|' :: rest) = some (f, rest) := by
  induction f with
  | nil => simpa [esc] using readField_sep rest
  | cons c f ih =>
    by_cases hc : c == '\\' || c == '|'
    · simp only [esc, escChar, hc, if_true, List.cons_append, List.append_assoc,
        List.nil_append]
      rw [readField_escaped, ih]
      rfl
    · simp only [Bool.or_eq_true, beq_iff_eq, not_or] at hc
      have hcb : (c == '\\' || c == '|') = false := by
        simp [hc.1, hc.2]
      simp only [esc, escChar, hcb, Bool.false_eq_true, if_false,
        List.cons_append, List.nil_append]
      rw [readField_other c hc.1 hc.2, ih]
      rfl

theorem readField_esc (f : List Char) : readField (esc f) = some (f, []) := by
  induction f with
  | nil => simpa [esc] using readField_nil
  | cons c f ih =>
    by_cases hc : c == '\\' || c == '|'
    · simp only [esc, escChar, hc, if_true, List.cons_append, List.append_assoc,
        List.nil_append]
      rw [readField_escaped, ih]
      rfl
    · simp only [Bool.or_eq_true, beq_iff_eq, not_or] at hc
      have hcb : (c == '\\' || c == '|') = false := by
        simp [hc.1, hc.2]
      simp only [esc, escChar, hcb, Bool.false_eq_true, if_false,
        List.cons_append, List.nil_append]
      rw [readField_other c hc.1 hc.2, ih]
      rfl

theorem decErr_encErr (e : Option String) : decErr (encErr e) = some e := by
  cases e <;> rfl

theorem decodeSC_encodeSC (s : ScrapedContent) : decodeSC (encodeSC s) = some s := by
  simp only [decodeSC, encodeSC, encFields]
  simp [readField_esc_append, readField_esc, decErr_encErr, Option.bind]

/-! ### Helper lemmas: the cache -/

theorem Cache.get_set_self (c : Cache) (now t : Nat) (k v : String) (ex : Nat) :
    (c.set now k v ex).get t k = if t < now + ex then some v else none := by
  simp [Cache.set, Cache.get, List.find?]

theorem find?_filter_ne (k k' : String) (h : k' ≠ k) (l : List (String × String × Nat)) :
    List.find? (fun e => e.1 == k') (l.filter (fun e => e.1 != k)) =
      List.find? (fun e => e.1 == k') l := by
  induction l with
  | nil => rfl
  | cons e l ih =>
    rw [List.filter_cons]
    by_cases hk : e.1 = k
    · have he : (e.1 == k') = false := by
        rw [beq_eq_false_iff_ne, hk]
        exact Ne.symm h
      have hb : (e.1 != k) = false := by simp [bne, hk]
      rw [hb, if_neg (by simp), ih, List.find?_cons_of_neg _ (by simp [he])]
    · have hb : (e.1 != k) = true := by simp [bne, hk]
      rw [hb, if_pos rfl]
      by_cases he : e.1 = k'
      · rw [List.find?_cons_of_pos _ (by simp [he]), List.find?_cons_of_pos _ (by simp [he])]
      · rw [List.find?_cons_of_neg _ (by simp [he]), List.find?_cons_of_neg _ (by simp [he]),
          ih]

theorem Cache.get_set_ne (c : Cache) (now t : Nat) (k k' v : String) (ex : Nat)
    (h : k' ≠ k) : (c.set now k v ex).get t k' = c.get t k' := by
  have hbeq : (k == k') = false := by
    rw [beq_eq_false_iff_ne]
    exact Ne.symm h
  simp only [Cache.set, Cache.get]
  rw [List.find?_cons_of_neg _ (by simp [hbeq]), find?_filter_ne k k' h]

/-- The two cache namespaces never collide: a raw-markup key is not a
structured-content key. -/
theorem raw_ne_struct (a b : String) :
    ("scrapeRawHtml:" ++ a) ≠ ("scrapedContent:" ++ b) := by
  intro h
  have h2 : ("scrapeRawHtml:" ++ a).data = ("scrapedContent:" ++ b).data := by rw [h]
  rw [String.data_append, String.data_append] at h2
  have e1 : "scrapeRawHtml:".data =
      ['s', 'c', 'r', 'a', 'p', 'e', 'R', 'a', 'w', 'H', 't', 'm', 'l', ':'] := rfl
  have e2 : "scrapedContent:".data =
      ['s', 'c', 'r', 'a', 'p', 'e', 'd', 'C', 'o', 'n', 't', 'e', 'n', 't', ':'] := rfl
  rw [e1, e2] at h2
  simp at h2

/-! ### The reachable-cache invariant

`scrapeURL` is the only writer of the structured-content namespace, and it
only ever stores `encodeSC` of a record whose `content` was truncated to
40,000 characters and whose `error` is `null`.  `GoodCache` captures this:
it holds for the empty cache and is preserved by every pipeline call, so it
holds for every cache state the program itself can reach. -/

/-- Appending to the fixed prefix `scrapedContent:` is injective in the
suffix. -/
theorem struct_key_injective (a b : String)
    (h : ("scrapedContent:" ++ a) = ("scrapedContent:" ++ b)) : a = b := by
  have h2 : ("scrapedContent:" ++ a).data = ("scrapedContent:" ++ b).data := by rw [h]
  rw [String.data_append, String.data_append] at h2
  have h3 := List.append_cancel_left h2
  cases a
  cases b
  simp only at h3
  rw [h3]

/-- The shape of every record the structured-content cache can hold. -/
def SCok (s : ScrapedContent) : Prop :=
  s.content.length ≤ 40000 ∧ s.error = none

/-- Every structured-content entry of the cache deserializes to a record of
the shape `scrapeURL` stores, whose `url` field is the URL of the key. -/
def GoodCache (c : Cache) : Prop :=
  ∀ e ∈ c.entries, ∀ u : String, e.1 = "scrapedContent:" ++ u →
    ∃ s, decodeSC e.2.1 = some s ∧ SCok s ∧ s.url = u

theorem goodCache_empty : GoodCache ⟨[]⟩ := by
  intro e he
  simp at he

theorem goodCache_set_raw (c : Cache) (now : Nat) (url v : String) (ex : Nat)
    (h : GoodCache c) : GoodCache (c.set now ("scrapeRawHtml:" ++ url) v ex) := by
  intro e he u hu
  simp only [Cache.set, List.mem_cons] at he
  rcases he with rfl | he
  · exact absurd hu (raw_ne_struct url u)
  · exact h e (List.mem_of_mem_filter he) u hu

theorem goodCache_set_struct (c : Cache) (now : Nat) (u0 v : String) (ex : Nat)
    (s : ScrapedContent) (hv : decodeSC v = some s) (hs : SCok s) (hurl : s.url = u0)
    (h : GoodCache c) : GoodCache (c.set now ("scrapedContent:" ++ u0) v ex) := by
  intro e he u hu
  simp only [Cache.set, List.mem_cons] at he
  rcases he with rfl | he
  · refine ⟨s, hv, hs, ?_⟩
    rw [hurl]
    exact struct_key_injective u0 u hu
  · exact h e (List.mem_of_mem_filter he) u hu

/-- A structured-cache hit in a good cache always deserializes. -/
theorem goodCache_get (c : Cache) (now : Nat) (u v : String)
    (h : GoodCache c) (hg : c.get now ("scrapedContent:" ++ u) = some v) :
    ∃ s, decodeSC v = some s ∧ SCok s ∧ s.url = u := by
  simp only [Cache.get] at hg
  rcases hfind : c.entries.find? (fun e => e.1 == ("scrapedContent:" ++ u)) with _ | e
  · rw [hfind] at hg; exact absurd hg (by simp)
  · rw [hfind] at hg
    obtain ⟨k, v', d⟩ := e
    have hmem := List.mem_of_find?_eq_some hfind
    have hkey : k = "scrapedContent:" ++ u := by
      have := List.find?_some hfind
      simpa using this
    have hv' : v' = v := by
      by_cases hd : now < d
      · simpa [hd] using hg
      · simp [hd] at hg
    subst hv'
    exact h _ hmem u hkey

theorem jsSlice_length_le (s : String) (n : Nat) : (jsSlice s n).length ≤ n := by
  simp only [jsSlice, String.length]
  exact List.length_take_le n s.data

theorem goodCache_getRawHtml (env : Env) (now : Nat) (c : Cache) (url : String)
    (h : GoodCache c) : GoodCache (getRawHtml env now c url).cache := by
  rcases hg : c.get now ("scrapeRawHtml:" ++ url) with _ | cached
  · rcases hf : fetchRaw env url with _ | rawHtml
    · simpa [getRawHtml, hg, hf] using h
    · by_cases hr : rawHtml = ""
      · simpa [getRawHtml, hg, hf, hr] using h
      · by_cases hs : env.setFails ("scrapeRawHtml:" ++ url)
        · simpa [getRawHtml, hg, hf, hr, hs] using h
        · simp only [getRawHtml, hg, hf, hr, hs]
          simpa using goodCache_set_raw c now url (jsSlice rawHtml MAX_CACHE_SIZE)
            CACHE_EXPIRATION h
  · simpa [getRawHtml, hg] using h

theorem goodCache_scrapeURL (env : Env) (now : Nat) (c : Cache) (url : String)
    (h : GoodCache c) : GoodCache (scrapeURL env now c url).cache := by
  rcases hg : c.get now ("scrapedContent:" ++ url) with _ | cached
  · rcases hraw : getRawHtml env now c url with ⟨htm, c2, tr⟩
    have hc2 : GoodCache c2 := by
      have := goodCache_getRawHtml env now c url h
      rw [hraw] at this
      exact this
    rcases htm with _ | rawHtml
    · simpa [scrapeURL, hg, hraw] using hc2
    · by_cases hr : rawHtml = ""
      · simpa [scrapeURL, hg, hraw, hr] using hc2
      · by_cases hs : env.setFails ("scrapedContent:" ++ url)
        · simpa [scrapeURL, hg, hraw, hr, hs] using hc2
        · simp only [scrapeURL, hg, hraw, hr, hs]
          simpa using goodCache_set_struct c2 now url _ CACHE_EXPIRATION _
            (decodeSC_encodeSC _) ⟨jsSlice_length_le _ _, rfl⟩ rfl hc2
  · rcases hd : decodeSC cached with _ | s
    · simpa [scrapeURL, hg, hd] using h
    · simpa [scrapeURL, hg, hd] using h

/-! ### Helper lemmas: path analysis of the cache layer and orchestrator -/

/-- The cache after `getRawHtml`: unchanged, or extended by exactly one
raw-markup entry holding truncated non-empty markup. -/
theorem getRawHtml_cache_cases (env : Env) (now : Nat) (c : Cache) (url : String) :
    (getRawHtml env now c url).cache = c ∨
    ∃ h2 : String, h2 ≠ "" ∧ (getRawHtml env now c url).cache =
      c.set now ("scrapeRawHtml:" ++ url) (jsSlice h2 MAX_CACHE_SIZE) CACHE_EXPIRATION := by
  rcases hg : c.get now ("scrapeRawHtml:" ++ url) with _ | cached
  · rcases hf : fetchRaw env url with _ | rawHtml
    · simp [getRawHtml, hg, hf]
    · by_cases hr : rawHtml = ""
      · simp [getRawHtml, hg, hf, hr]
      · by_cases hs : env.setFails ("scrapeRawHtml:" ++ url)
        · simp [getRawHtml, hg, hf, hr, hs]
        · right
          exact ⟨rawHtml, hr, by simp [getRawHtml, hg, hf, hr, hs]⟩
  · simp [getRawHtml, hg]

/-- The call `getRawHtml` performs no search work. -/
theorem getRawHtml_searchCalls (env : Env) (now : Nat) (c : Cache) (url : String) :
    (getRawHtml env now c url).tr.searchCalls = 0 := by
  rcases hg : c.get now ("scrapeRawHtml:" ++ url) with _ | cached
  · rcases hf : fetchRaw env url with _ | rawHtml
    · simp [getRawHtml, hg, hf, fetchTrace, Trace.zero]
      rcases determineScrapingMethod env url with _ | _ <;> rfl
    · by_cases hr : rawHtml = ""
      · simp only [getRawHtml, hg, hf, hr, if_true, fetchTrace]
        rcases determineScrapingMethod env url with _ | _ <;> rfl
      · by_cases hs : env.setFails ("scrapeRawHtml:" ++ url)
        · simp only [getRawHtml, hg, hf, hr, hs, if_false, if_true, fetchTrace]
          rcases determineScrapingMethod env url with _ | _ <;> rfl
        · simp only [getRawHtml, hg, hf, hr, hs, if_false, fetchTrace]
          rcases determineScrapingMethod env url with _ | _ <;> rfl
  · simp [getRawHtml, hg, Trace.zero]

/-- On a good cache, `scrapeURL` always returns a value (the only way it
can throw is a cache entry `JSON.parse` rejects, and a good cache has
none). -/
theorem scrapeURL_res_isSome (env : Env) (now : Nat) (c : Cache) (url : String)
    (h : GoodCache c) : ((scrapeURL env now c url).res).isSome = true := by
  rcases hg : c.get now ("scrapedContent:" ++ url) with _ | cached
  · rcases hraw : getRawHtml env now c url with ⟨htm, c2, tr⟩
    rcases htm with _ | rawHtml
    · simp [scrapeURL, hg, hraw]
    · by_cases hr : rawHtml = ""
      · simp [scrapeURL, hg, hraw, hr]
      · by_cases hs : env.setFails ("scrapedContent:" ++ url)
        · simp [scrapeURL, hg, hraw, hr, hs]
        · simp [scrapeURL, hg, hraw, hr, hs]
  · obtain ⟨s, hd, _⟩ := goodCache_get c now url cached h hg
    simp [scrapeURL, hg, hd]

/-- The call `scrapeURL` never invokes the search resolver. -/
theorem scrapeURL_searchCalls (env : Env) (now : Nat) (c : Cache) (url : String) :
    (scrapeURL env now c url).tr.searchCalls = 0 := by
  rcases hg : c.get now ("scrapedContent:" ++ url) with _ | cached
  · rcases hraw : getRawHtml env now c url with ⟨htm, c2, tr⟩
    have htr : tr.searchCalls = 0 := by
      have := getRawHtml_searchCalls env now c url
      rw [hraw] at this
      exact this
    rcases htm with _ | rawHtml
    · simpa [scrapeURL, hg, hraw] using htr
    · by_cases hr : rawHtml = ""
      · simpa [scrapeURL, hg, hraw, hr] using htr
      · by_cases hs : env.setFails ("scrapedContent:" ++ url)
        · simpa [scrapeURL, hg, hraw, hr, hs] using htr
        · simpa [scrapeURL, hg, hraw, hr, hs] using htr
  · rcases hd : decodeSC cached with _ | s <;> simp [scrapeURL, hg, hd, Trace.zero]

/-- When no cache write can fail, every record `scrapeURL` returns with
`error` set has all extracted string fields empty. -/
theorem scrapeURL_error_fields (env : Env) (now : Nat) (c : Cache) (url : String)
    (hset : ∀ k, env.setFails k = false) (hgood : GoodCache c) :
    ∀ s, (scrapeURL env now c url).res = some s → s.error ≠ none →
      s.title = "" ∧ s.metaDescription = "" ∧ s.headings.h1 = "" ∧
        s.headings.h2 = "" ∧ s.content = "" := by
  intro s hres herr
  rcases hg : c.get now ("scrapedContent:" ++ url) with _ | cached
  · rcases hraw : getRawHtml env now c url with ⟨htm, c2, tr⟩
    rcases htm with _ | rawHtml
    · have : s = emptySC url "Failed to scrape URL" := by
        have := hres
        simp only [scrapeURL, hg, hraw, Option.some.injEq] at this
        exact this.symm
      subst this
      simp [emptySC]
    · by_cases hr : rawHtml = ""
      · have : s = emptySC url "Failed to fetch raw HTML." := by
          have := hres
          simp only [scrapeURL, hg, hraw, hr, if_true, Option.some.injEq] at this
          exact this.symm
        subst this
        simp [emptySC]
      · have hs := hset ("scrapedContent:" ++ url)
        have : s = parseScraped env url rawHtml := by
          have := hres
          simp only [scrapeURL, hg, hraw, hr, hs, Bool.false_eq_true, if_false,
            Option.some.injEq] at this
          exact this.symm
        subst this
        exact absurd rfl herr
  · obtain ⟨s2, hd, hok, _⟩ := goodCache_get c now url cached hgood hg
    have : s = s2 := by
      have := hres
      simp only [scrapeURL, hg, hd, Option.some.injEq] at this
      exact this.symm
    subst this
    exact absurd hok.2 herr

/-! ### Helper lemma: the longest-selector-text fold of the extractor -/

theorem foldl_longest (l : List String) (acc : String) :
    ((l.foldl (fun a t => if t.length > a.length then t else a) acc) = acc ∨
      (l.foldl (fun a t => if t.length > a.length then t else a) acc) ∈ l) ∧
    acc.length ≤ (l.foldl (fun a t => if t.length > a.length then t else a) acc).length ∧
    ∀ t ∈ l, t.length ≤ (l.foldl (fun a t => if t.length > a.length then t else a) acc).length := by
  induction l generalizing acc with
  | nil => simp
  | cons x l ih =>
    simp only [List.foldl_cons]
    by_cases hx : x.length > acc.length
    · simp only [hx, if_true]
      obtain ⟨h1, h2, h3⟩ := ih x
      refine ⟨?_, ?_, ?_⟩
      · rcases h1 with h1 | h1
        · exact Or.inr (by simp [h1])
        · exact Or.inr (List.mem_cons_of_mem _ h1)
      · exact le_trans (le_of_lt hx) h2
      · intro t ht
        rcases List.mem_cons.mp ht with rfl | ht
        · exact h2
        · exact h3 t ht
    · simp only [hx, if_false]
      obtain ⟨h1, h2, h3⟩ := ih acc
      refine ⟨?_, ?_, ?_⟩
      · rcases h1 with h1 | h1
        · exact Or.inl h1
        · exact Or.inr (List.mem_cons_of_mem _ h1)
      · exact h2
      · intro t ht
        rcases List.mem_cons.mp ht with rfl | ht
        · exact le_trans (le_of_not_lt hx) h2
        · exact h3 t ht

theorem length_pos_of_ne_empty (t : String) (h : t ≠ "") : 0 < t.length := by
  rcases Nat.eq_zero_or_pos t.length with h0 | hpos
  · exfalso
    apply h
    have : t.data = [] := List.length_eq_zero.mp h0
    cases t
    simp only at this
    rw [this]
  · exact hpos

/-! ### Concrete environments for witnesses and counterexamples -/

/-- A minimal environment: every network request fails, every parse is
empty, no cache write fails. -/
def baseEnv : Env :=
  { httpGet := fun _ => none
    launchFails := false
    navFails := fun _ => false
    rendered := fun _ => ""
    setFails := fun _ => false
    parseHtml := fun _ => []
    parseURL := fun _ => none
    encodeURIComponent := id
    decodeURIComponent := id }

/-- An environment where the page at `"u"` is static markup with a title
and a body paragraph, every cache write succeeds, and everything else
fails. -/
def okEnv : Env :=
  { baseEnv with
    httpGet := fun u =>
      if u = "u" then some "<html><title>T</title><p>hi</p></html>" else none
    parseHtml := fun h =>
      if h = "<html><title>T</title><p>hi</p></html>" then
        [Node.elem "html" []
          [Node.elem "title" [] [Node.text "T"],
           Node.elem "body" [] [Node.elem "p" [] [Node.text "hi  there"]]]]
      else [] }

/-- The record a fresh scrape of `"u"` under `okEnv` produces. -/
def sampleRec : ScrapedContent := ⟨"u", "T", ⟨"", ""⟩, "", "hi there", none⟩

/-- An environment where the browser cannot launch. -/
def launchFailEnv : Env := { baseEnv with launchFails := true }

/-- An environment like `okEnv` (page `"u"` has a title) in which the
structured-content cache write — and only it — fails. -/
def setFailEnv : Env :=
  { baseEnv with
    httpGet := fun u => if u = "u" then some "<t>" else none
    parseHtml := fun h => if h = "<t>" then [Node.elem "title" [] [Node.text "T"]] else []
    setFails := fun k => k == "scrapedContent:" ++ "u" }

/-- The populated-yet-errored record `setFailEnv` produces for `"u"`. -/
def failedRec : ScrapedContent := ⟨"u", "T", ⟨"", ""⟩, "", "", some "Failed to scrape URL"⟩

/-! ### Claim C9 — the render-method classifier -/

/-- Claim C9.  For every markup input containing the literal substring
`data-reactroot` the classifier returns the browser-render (`puppeteer`)
verdict; for every markup input containing none of the known indicator
substrings it returns the lightweight-fetch (`cheerio`) verdict; and when
the initial fetch fails it defaults to the browser-render verdict. -/
theorem c9_classifier (env : Env) (url : String) :
    (∀ html, env.httpGet url = some html →
      (containsSub html "data-reactroot" = true →
        determineScrapingMethod env url = Method.puppeteer) ∧
      ((∀ ind ∈ NEEDS_PUPPETEER, containsSub html ind = false) →
        determineScrapingMethod env url = Method.cheerio)) ∧
    (env.httpGet url = none → determineScrapingMethod env url = Method.puppeteer) := by
  constructor
  · intro html hh
    constructor
    · intro hc
      have hany : NEEDS_PUPPETEER.any (fun ind => containsSub html ind) = true :=
        List.any_eq_true.mpr ⟨"data-reactroot", by simp [NEEDS_PUPPETEER], hc⟩
      simp [determineScrapingMethod, hh, hany]
    · intro hnone
      have hany : NEEDS_PUPPETEER.any (fun ind => containsSub html ind) = false := by
        simp only [List.any_eq_false]
        intro ind hind
        simp [hnone ind hind]
      simp [determineScrapingMethod, hh, hany]
  · intro hh
    simp [determineScrapingMethod, hh]

/-- The classifier environment for the C9 witness: `"u"` serves markup
with a React root marker, `"v"` serves plain markup, `"w"` is
unreachable. -/
def c9env : Env :=
  { baseEnv with
    httpGet := fun u =>
      if u = "u" then some "aa data-reactroot bb"
      else if u = "v" then some "hello" else none }

theorem c9_witness :
    determineScrapingMethod c9env "u" = Method.puppeteer ∧
    determineScrapingMethod c9env "v" = Method.cheerio ∧
    determineScrapingMethod c9env "w" = Method.puppeteer :=
  ⟨((c9_classifier c9env "u").1 "aa data-reactroot bb" rfl).1 (by decide),
   ((c9_classifier c9env "v").1 "hello" rfl).2 (by decide),
   (c9_classifier c9env "w").2 rfl⟩

/-! ### Claim C8 — the content extractor -/

/-- Claim C8.  The main content the extractor returns is the single longest normalized
text among the candidate selector texts (not a concatenation): when some
candidate text is non-empty, the output is one of the candidate texts and
is at least as long as each of them; when every candidate text is empty,
the output is the normalized full-body text of the stripped document. -/
theorem c8_extractor (env : Env) (rawHtml : String) :
    ((∀ t ∈ CONTENT_SELECTORS.map (fun sel =>
        cleanText (selText sel (removeForest STRIP_TAGS (env.parseHtml rawHtml)))), t = "") →
      extractMainContent env rawHtml =
        cleanText (selText (Sel.tagName "body")
          (removeForest STRIP_TAGS (env.parseHtml rawHtml)))) ∧
    ((∃ t ∈ CONTENT_SELECTORS.map (fun sel =>
        cleanText (selText sel (removeForest STRIP_TAGS (env.parseHtml rawHtml)))), t ≠ "") →
      extractMainContent env rawHtml ∈ CONTENT_SELECTORS.map (fun sel =>
        cleanText (selText sel (removeForest STRIP_TAGS (env.parseHtml rawHtml)))) ∧
      ∀ t ∈ CONTENT_SELECTORS.map (fun sel =>
        cleanText (selText sel (removeForest STRIP_TAGS (env.parseHtml rawHtml)))),
        t.length ≤ (extractMainContent env rawHtml).length) := by
  have hext : extractMainContent env rawHtml =
      if (CONTENT_SELECTORS.map (fun sel =>
            cleanText (selText sel (removeForest STRIP_TAGS (env.parseHtml rawHtml))))).foldl
          (fun a t => if t.length > a.length then t else a) "" = ""
      then cleanText (selText (Sel.tagName "body")
        (removeForest STRIP_TAGS (env.parseHtml rawHtml)))
      else (CONTENT_SELECTORS.map (fun sel =>
            cleanText (selText sel (removeForest STRIP_TAGS (env.parseHtml rawHtml))))).foldl
          (fun a t => if t.length > a.length then t else a) "" := by
    rw [List.foldl_map]
    rfl
  obtain ⟨h1, _, h3⟩ := foldl_longest (CONTENT_SELECTORS.map (fun sel =>
    cleanText (selText sel (removeForest STRIP_TAGS (env.parseHtml rawHtml))))) ""
  constructor
  · intro hall
    have hz : (CONTENT_SELECTORS.map (fun sel =>
        cleanText (selText sel (removeForest STRIP_TAGS (env.parseHtml rawHtml))))).foldl
          (fun a t => if t.length > a.length then t else a) "" = "" := by
      rcases h1 with h1 | h1
      · exact h1
      · exact hall _ h1
    rw [hext, if_pos hz]
  · rintro ⟨t, ht, htne⟩
    have htlen : 0 < t.length := length_pos_of_ne_empty t htne
    have hrlen : 0 < ((CONTENT_SELECTORS.map (fun sel =>
        cleanText (selText sel (removeForest STRIP_TAGS (env.parseHtml rawHtml))))).foldl
          (fun a t => if t.length > a.length then t else a) "").length :=
      lt_of_lt_of_le htlen (h3 t ht)
    have hrne : (CONTENT_SELECTORS.map (fun sel =>
        cleanText (selText sel (removeForest STRIP_TAGS (env.parseHtml rawHtml))))).foldl
          (fun a t => if t.length > a.length then t else a) "" ≠ "" := by
      intro hz
      rw [hz] at hrlen
      exact absurd hrlen (by simp)
    rw [hext, if_neg hrne]
    constructor
    · rcases h1 with h1 | h1
      · exact absurd h1 hrne
      · exact h1
    · exact h3

/-- The extractor environment for the C8 witness: one document with only a
body (fallback case), one with an `article` and a shorter `main`
(longest-candidate case). -/
def c8env : Env :=
  { baseEnv with
    parseHtml := fun h =>
      if h = "A" then
        [Node.elem "body" [] [Node.text "fallback  text"]]
      else if h = "B" then
        [Node.elem "body" []
          [Node.elem "article" [] [Node.text "long article text"],
           Node.elem "main" [] [Node.text "short"]]]
      else [] }

theorem c8_witness :
    extractMainContent c8env "A" = "fallback text" ∧
    extractMainContent c8env "B" = "long article text" ∧
    extractMainContent c8env "B" ∈ CONTENT_SELECTORS.map (fun sel =>
      cleanText (selText sel (removeForest STRIP_TAGS (c8env.parseHtml "B")))) := by
  refine ⟨?_, ?_, ?_⟩
  · have := (c8_extractor c8env "A").1 (by decide)
    rw [this]
    decide
  · decide
  · exact ((c8_extractor c8env "B").2 ⟨"long article text", by decide, by decide⟩).1

/-! ### Claim C2 — the page fetchers

The claim as stated is false: `puppeteer.launch` runs *before* the try
block of `scrapeWithPuppeteer` (scraper.ts line 166 versus the try at line
171), so a browser-launch failure propagates an exception to the caller
instead of degrading to the empty string.  Every post-launch failure is
caught, degrades to `""`, and still tears the browser down; and
`scrapeWithCheerio` never throws. -/

/-- Claim C2, counterexample.  When the browser cannot launch,
`scrapeWithPuppeteer` propagates the exception (`html = none`) rather
than returning the empty string, and no browser instance ever existed to
tear down. -/
theorem c2_counterexample :
    (scrapeWithPuppeteer launchFailEnv "https://x.example/").html = none ∧
    (scrapeWithPuppeteer launchFailEnv "https://x.example/").html ≠ some "" ∧
    (scrapeWithPuppeteer launchFailEnv "https://x.example/").launched = false := by
  decide

/-- Claim C2, amended.  `scrapeWithCheerio` never propagates an exception
and returns the empty string when its GET fails; `scrapeWithPuppeteer`
never propagates an exception *once the launch succeeded* and then always
tears the browser down, returning `""` on a navigation failure — but a
failed `puppeteer.launch` propagates to the caller. -/
theorem c2_fetchers_amended (env : Env) (url : String) :
    ((scrapeWithCheerio env url).html).isSome = true ∧
    (env.httpGet url = none → (scrapeWithCheerio env url).html = some "") ∧
    (env.launchFails = false →
      ((scrapeWithPuppeteer env url).html).isSome = true ∧
      (scrapeWithPuppeteer env url).closed = true) ∧
    (env.launchFails = false → env.navFails url = true →
      (scrapeWithPuppeteer env url).html = some "" ∧
      (scrapeWithPuppeteer env url).closed = true) ∧
    (env.launchFails = true →
      (scrapeWithPuppeteer env url).html = none ∧
      (scrapeWithPuppeteer env url).launched = false) := by
  refine ⟨?_, ?_, ?_, ?_, ?_⟩
  · rcases hh : env.httpGet url with _ | body <;> simp [scrapeWithCheerio, hh]
  · intro hh
    simp [scrapeWithCheerio, hh]
  · intro hl
    by_cases hn : env.navFails url <;> simp [scrapeWithPuppeteer, hl, hn]
  · intro hl hn
    simp [scrapeWithPuppeteer, hl, hn]
  · intro hl
    simp [scrapeWithPuppeteer, hl]

/-- An environment whose browser launches but cannot navigate anywhere
(and whose plain GETs, inherited from `baseEnv`, all fail). -/
def navFailEnv : Env := { baseEnv with navFails := fun _ => true }

theorem c2_witness :
    ((scrapeWithCheerio navFailEnv "u").html).isSome = true ∧
    (scrapeWithCheerio navFailEnv "u").html = some "" ∧
    (scrapeWithPuppeteer navFailEnv "u").html = some "" ∧
    (scrapeWithPuppeteer navFailEnv "u").closed = true :=
  ⟨(c2_fetchers_amended navFailEnv "u").1,
   (c2_fetchers_amended navFailEnv "u").2.1 rfl,
   ((c2_fetchers_amended navFailEnv "u").2.2.2.1 rfl rfl).1,
   ((c2_fetchers_amended navFailEnv "u").2.2.2.1 rfl rfl).2⟩

/-! ### Claim C6 — the raw-markup cache layer

The claim as stated is false on one path: when the raw-cache `redis.set`
itself rejects (spec section 7 lists an unreachable cache store among the
failure modes), the fetch produced non-empty markup yet *nothing* is
stored — the exception propagates out of `getRawHtml` (the set is not
inside any try in scraper.ts lines 240-246).  On every other path the
store-iff-non-empty, truncate-to-1,000,000, 7-day-expiry and
return-untruncated behaviour holds. -/

/-- The environment for the C6 counterexample: the page `"u"` fetches as
the one-character markup `"x"`, and every cache write fails. -/
def c6env : Env :=
  { baseEnv with
    httpGet := fun u => if u = "u" then some "x" else none
    setFails := fun _ => true }

/-- Claim C6, counterexample.  The fetch produced the non-empty markup
`"x"`, yet the call stores no cache entry at all (and propagates the
write failure instead of returning the markup). -/
theorem c6_counterexample :
    fetchRaw c6env "u" = some "x" ∧
    (getRawHtml c6env 0 ⟨[]⟩ "u").cache.entries = [] ∧
    (getRawHtml c6env 0 ⟨[]⟩ "u").html = none := by
  decide

/-- Claim C6, amended.  On a raw-markup cache miss, *provided the raw-cache
write does not fail*: a fetch that throws propagates with nothing stored;
empty markup is returned with nothing stored; and non-empty markup is
stored truncated to `MAX_CACHE_SIZE` (1,000,000) characters with a
`CACHE_EXPIRATION` (7-day) expiry while the untruncated markup is
returned. -/
theorem c6_getRawHtml_amended (env : Env) (now : Nat) (c : Cache) (url : String)
    (hmiss : c.get now ("scrapeRawHtml:" ++ url) = none)
    (hset : env.setFails ("scrapeRawHtml:" ++ url) = false) :
    (fetchRaw env url = none →
      getRawHtml env now c url = ⟨none, c, fetchTrace env url⟩) ∧
    (fetchRaw env url = some "" →
      getRawHtml env now c url = ⟨some "", c, fetchTrace env url⟩) ∧
    (∀ h, fetchRaw env url = some h → h ≠ "" →
      getRawHtml env now c url =
        ⟨some h,
         c.set now ("scrapeRawHtml:" ++ url) (jsSlice h MAX_CACHE_SIZE) CACHE_EXPIRATION,
         fetchTrace env url⟩) := by
  refine ⟨?_, ?_, ?_⟩
  · intro hf
    simp [getRawHtml, hmiss, hf]
  · intro hf
    simp [getRawHtml, hmiss, hf]
  · intro h hf hne
    simp [getRawHtml, hmiss, hf, hne, hset]

/-- Like `c6env` but with a healthy cache store. -/
def c6wenv : Env := { baseEnv with httpGet := fun u => if u = "u" then some "x" else none }

theorem c6_witness :
    getRawHtml c6wenv 0 ⟨[]⟩ "u" =
      ⟨some "x",
       Cache.set ⟨[]⟩ 0 ("scrapeRawHtml:" ++ "u") (jsSlice "x" MAX_CACHE_SIZE) CACHE_EXPIRATION,
       fetchTrace c6wenv "u"⟩ :=
  (c6_getRawHtml_amended c6wenv 0 ⟨[]⟩ "u" rfl rfl).2.2 "x" (by decide) (by decide)

/-! ### Claim C4 — the 40,000-character content bound -/

theorem parseScraped_content (env : Env) (url raw : String) :
    (parseScraped env url raw).content = jsSlice (extractMainContent env raw) 40000 := rfl

/-- Claim C4.  Every ScrapedContent `scrapeURL` returns — freshly extracted
or deserialized from a structured-cache entry previously written by
`scrapeURL` (the `GoodCache` invariant, preserved by every call) — has
`content.length ≤ 40000`. -/
theorem c4_content_bounded (env : Env) (now : Nat) (c : Cache) (url : String)
    (hgood : GoodCache c) :
    (∀ s, (scrapeURL env now c url).res = some s → s.content.length ≤ 40000) ∧
    GoodCache (scrapeURL env now c url).cache := by
  refine ⟨?_, goodCache_scrapeURL env now c url hgood⟩
  intro s hres
  rcases hg : c.get now ("scrapedContent:" ++ url) with _ | cached
  · rcases hraw : getRawHtml env now c url with ⟨htm, c2, tr⟩
    rcases htm with _ | rawHtml
    · have hs : s = emptySC url "Failed to scrape URL" := by
        have h2 := hres
        simp only [scrapeURL, hg, hraw, Option.some.injEq] at h2
        exact h2.symm
      subst hs
      simp [emptySC]
    · by_cases hr : rawHtml = ""
      · have hs : s = emptySC url "Failed to fetch raw HTML." := by
          have h2 := hres
          simp only [scrapeURL, hg, hraw, hr, if_true, Option.some.injEq] at h2
          exact h2.symm
        subst hs
        simp [emptySC]
      · by_cases hsf : env.setFails ("scrapedContent:" ++ url)
        · have hs : s =
              { parseScraped env url rawHtml with error := some "Failed to scrape URL" } := by
            have h2 := hres
            simp only [scrapeURL, hg, hraw, hr, hsf, if_false, if_true,
              Option.some.injEq] at h2
            exact h2.symm
          subst hs
          simpa [parseScraped_content] using
            jsSlice_length_le (extractMainContent env rawHtml) 40000
        · have hs : s = parseScraped env url rawHtml := by
            have h2 := hres
            simp only [scrapeURL, hg, hraw, hr, hsf, Bool.false_eq_true, if_false,
              Option.some.injEq] at h2
            exact h2.symm
          subst hs
          simpa [parseScraped_content] using
            jsSlice_length_le (extractMainContent env rawHtml) 40000
  · obtain ⟨s2, hd, hok, _⟩ := goodCache_get c now url cached hgood hg
    have hs : s = s2 := by
      have h2 := hres
      simp only [scrapeURL, hg, hd, Option.some.injEq] at h2
      exact h2.symm
    subst hs
    exact hok.1

theorem c4_witness :
    (scrapeURL okEnv 0 ⟨[]⟩ "u").res = some sampleRec ∧
    sampleRec.content.length ≤ 40000 :=
  ⟨by decide, (c4_content_bounded okEnv 0 ⟨[]⟩ "u" goodCache_empty).1 sampleRec (by decide)⟩

/-! ### Claim C5 — the structured-content cache hit -/

/-- Claim C5.  When a first `scrapeURL` call on a cache miss succeeds (and
therefore stores its record), a second call for the same URL within the
7-day lifetime of the entry — under *any* environment and *any* later clock —
does zero classification, fetch, browser and search work and returns
exactly the record the first call stored (the deserialization of the
stored serialized record), leaving the cache unchanged. -/
theorem c5_cache_hit (env env2 : Env) (t1 t2 : Nat) (c : Cache) (url : String)
    (s : ScrapedContent)
    (hmiss : c.get t1 ("scrapedContent:" ++ url) = none)
    (h1 : (scrapeURL env t1 c url).res = some s)
    (hok : s.error = none)
    (ht : t2 < t1 + CACHE_EXPIRATION) :
    scrapeURL env2 t2 (scrapeURL env t1 c url).cache url =
      ⟨some s, (scrapeURL env t1 c url).cache, Trace.zero⟩ := by
  rcases hraw : getRawHtml env t1 c url with ⟨htm, c2, tr⟩
  rcases htm with _ | rawHtml
  · exfalso
    have h2 := h1
    simp only [scrapeURL, hmiss, hraw, Option.some.injEq] at h2
    rw [← h2] at hok
    simp [emptySC] at hok
  · by_cases hr : rawHtml = ""
    · exfalso
      have h2 := h1
      simp only [scrapeURL, hmiss, hraw, hr, if_true, Option.some.injEq] at h2
      rw [← h2] at hok
      simp [emptySC] at hok
    · by_cases hsf : env.setFails ("scrapedContent:" ++ url)
      · exfalso
        have h2 := h1
        simp only [scrapeURL, hmiss, hraw, hr, hsf, if_false, if_true,
          Option.some.injEq] at h2
        rw [← h2] at hok
        simp at hok
      · have hs : parseScraped env url rawHtml = s := by
          have h2 := h1
          simp only [scrapeURL, hmiss, hraw, hr, hsf, Bool.false_eq_true, if_false,
            Option.some.injEq] at h2
          exact h2
        subst hs
        have hcache : (scrapeURL env t1 c url).cache =
            c2.set t1 ("scrapedContent:" ++ url)
              (encodeSC (parseScraped env url rawHtml)) CACHE_EXPIRATION := by
          simp only [scrapeURL, hmiss, hraw, hr, hsf, Bool.false_eq_true, if_false]
        have hget : (c2.set t1 ("scrapedContent:" ++ url)
              (encodeSC (parseScraped env url rawHtml)) CACHE_EXPIRATION).get t2
              ("scrapedContent:" ++ url) =
            some (encodeSC (parseScraped env url rawHtml)) := by
          rw [Cache.get_set_self]
          simp [ht]
        rw [hcache]
        simp only [scrapeURL, hget, decodeSC_encodeSC]

theorem c5_witness :
    scrapeURL okEnv 10 (scrapeURL okEnv 0 ⟨[]⟩ "u").cache "u" =
      ⟨some sampleRec, (scrapeURL okEnv 0 ⟨[]⟩ "u").cache, Trace.zero⟩ :=
  c5_cache_hit okEnv okEnv 0 10 ⟨[]⟩ "u" sampleRec rfl (by decide) rfl (by decide)

/-! ### Claim C3 — no caching of failures

The claim as stated is false on one path: when the raw fetch succeeds (so
`getRawHtml` stores the raw-markup entry) and then the *structured*-cache
write rejects, `scrapeURL` returns an errored record even though that very
call wrote a raw-markup cache entry — a later retry will reuse the cached
raw markup rather than repeat the fetch.  The structured-content namespace,
however, is never written by a failing call. -/

/-- Claim C3, counterexample.  Under `setFailEnv` the call returns an
errored record, yet its cache now holds the raw-markup entry this very
call wrote. -/
theorem c3_counterexample :
    (scrapeURL setFailEnv 0 ⟨[]⟩ "u").res = some failedRec ∧
    failedRec.error = some "Failed to scrape URL" ∧
    (scrapeURL setFailEnv 0 ⟨[]⟩ "u").cache.entries =
      [("scrapeRawHtml:" ++ "u", "<t>", CACHE_EXPIRATION)] := by
  decide

/-- Claim C3, amended.  A `scrapeURL` call that returns a record with
`error` set never writes a structured-content entry (those lookups are
unchanged for every key and every time), and writes no raw-markup entry
either — except that the call may have stored the truncated non-empty raw
markup when the failure struck *after* the raw fetch-and-store succeeded
(namely a structured-cache write failure). -/
theorem c3_no_failure_caching_amended (env : Env) (now : Nat) (c : Cache) (url : String) :
    ∀ s, (scrapeURL env now c url).res = some s → s.error ≠ none →
      (∀ t u, (scrapeURL env now c url).cache.get t ("scrapedContent:" ++ u) =
        c.get t ("scrapedContent:" ++ u)) ∧
      ((scrapeURL env now c url).cache = c ∨
        ∃ h2 : String, h2 ≠ "" ∧ (scrapeURL env now c url).cache =
          c.set now ("scrapeRawHtml:" ++ url) (jsSlice h2 MAX_CACHE_SIZE)
            CACHE_EXPIRATION) := by
  intro s hres herr
  have main : (scrapeURL env now c url).cache = c ∨
      ∃ h2 : String, h2 ≠ "" ∧ (scrapeURL env now c url).cache =
        c.set now ("scrapeRawHtml:" ++ url) (jsSlice h2 MAX_CACHE_SIZE)
          CACHE_EXPIRATION := by
    rcases hg : c.get now ("scrapedContent:" ++ url) with _ | cached
    · rcases hraw : getRawHtml env now c url with ⟨htm, c2, tr⟩
      have hc2 : c2 = c ∨ ∃ h2 : String, h2 ≠ "" ∧ c2 =
          c.set now ("scrapeRawHtml:" ++ url) (jsSlice h2 MAX_CACHE_SIZE)
            CACHE_EXPIRATION := by
        have h3 := getRawHtml_cache_cases env now c url
        rw [hraw] at h3
        exact h3
      rcases htm with _ | rawHtml
      · simpa [scrapeURL, hg, hraw] using hc2
      · by_cases hr : rawHtml = ""
        · simpa [scrapeURL, hg, hraw, hr] using hc2
        · by_cases hsf : env.setFails ("scrapedContent:" ++ url)
          · simpa [scrapeURL, hg, hraw, hr, hsf] using hc2
          · exfalso
            have h2 := hres
            simp only [scrapeURL, hg, hraw, hr, hsf, Bool.false_eq_true, if_false,
              Option.some.injEq] at h2
            rw [← h2] at herr
            exact herr rfl
    · rcases hd : decodeSC cached with _ | s2
      · exfalso
        have h2 := hres
        simp only [scrapeURL, hg, hd] at h2
        exact Option.noConfusion h2
      · simp [scrapeURL, hg, hd]
  refine ⟨?_, main⟩
  intro t u
  rcases main with hmain | ⟨h2, _, hmain⟩
  · rw [hmain]
  · rw [hmain, Cache.get_set_ne]
    exact fun hh => raw_ne_struct url u hh.symm

theorem c3_witness :
    (scrapeURL setFailEnv 0 ⟨[]⟩ "u").cache.get 99 ("scrapedContent:" ++ "u") =
      Cache.get ⟨[]⟩ 99 ("scrapedContent:" ++ "u") :=
  (c3_no_failure_caching_amended setFailEnv 0 ⟨[]⟩ "u" failedRec (by decide)
    (by decide)).1 99 "u"

/-! ### Shared helpers for the orchestrator claims -/

theorem Trace.add_searchCalls (a b : Trace) :
    (a + b).searchCalls = a.searchCalls + b.searchCalls := rfl

/-- When the query parses as a URL and the cache is good, `scrapeAndSearch`
is exactly `scrapeURL` on the normalized URL (the fall-through to the
search resolver only fires when the awaited `scrapeURL` rejects, which a
good cache rules out). -/
theorem scrapeAndSearch_delegates (env : Env) (now : Nat) (c : Cache) (q u : String)
    (hgood : GoodCache c) (hu : env.parseURL q = some u) :
    scrapeAndSearch env now c q = scrapeURL env now c u := by
  have hsome := scrapeURL_res_isSome env now c u hgood
  rcases hout : (scrapeURL env now c u).res with _ | s1
  · rw [hout] at hsome
    exact absurd hsome (by simp)
  · simp [scrapeAndSearch, hu, hout]

/-- The `url` field of every record `scrapeURL` returns is the URL it was
called with. -/
theorem scrapeURL_url_field (env : Env) (now : Nat) (c : Cache) (url : String)
    (hgood : GoodCache c) :
    ∀ s, (scrapeURL env now c url).res = some s → s.url = url := by
  intro s hres
  rcases hg : c.get now ("scrapedContent:" ++ url) with _ | cached
  · rcases hraw : getRawHtml env now c url with ⟨htm, c2, tr⟩
    rcases htm with _ | rawHtml
    · have hs : s = emptySC url "Failed to scrape URL" := by
        have h2 := hres
        simp only [scrapeURL, hg, hraw, Option.some.injEq] at h2
        exact h2.symm
      subst hs
      rfl
    · by_cases hr : rawHtml = ""
      · have hs : s = emptySC url "Failed to fetch raw HTML." := by
          have h2 := hres
          simp only [scrapeURL, hg, hraw, hr, if_true, Option.some.injEq] at h2
          exact h2.symm
        subst hs
        rfl
      · by_cases hsf : env.setFails ("scrapedContent:" ++ url)
        · have hs : s =
              { parseScraped env url rawHtml with error := some "Failed to scrape URL" } := by
            have h2 := hres
            simp only [scrapeURL, hg, hraw, hr, hsf, if_false, if_true,
              Option.some.injEq] at h2
            exact h2.symm
          subst hs
          rfl
        · have hs : s = parseScraped env url rawHtml := by
            have h2 := hres
            simp only [scrapeURL, hg, hraw, hr, hsf, Bool.false_eq_true, if_false,
              Option.some.injEq] at h2
            exact h2.symm
          subst hs
          rfl
  · obtain ⟨s2, hd, _, hurl⟩ := goodCache_get c now url cached hgood hg
    have hs : s = s2 := by
      have h2 := hres
      simp only [scrapeURL, hg, hd, Option.some.injEq] at h2
      exact h2.symm
    subst hs
    exact hurl

/-- Every record with `error` set that the search-then-scrape tail of
`scrapeAndSearch` returns has all extracted string fields empty, provided
cache writes never fail and the cache is good. -/
theorem tail_error_fields (env : Env) (now : Nat) (c : Cache) (q : String) (tr0 : Trace)
    (hset : ∀ k, env.setFails k = false) (hgood : GoodCache c) :
    ∀ s, (scrapeAndSearchTail env now c q tr0).res = some s → s.error ≠ none →
      s.title = "" ∧ s.metaDescription = "" ∧ s.headings.h1 = "" ∧
        s.headings.h2 = "" ∧ s.content = "" := by
  intro s hres herr
  rcases hsg : searchGoogle env q with _ | topUrl
  · have hs : s = noResultsSC := by
      have h2 := hres
      simp only [scrapeAndSearchTail, hsg, Option.some.injEq] at h2
      exact h2.symm
    subst hs
    simp [noResultsSC]
  · rcases hout : (scrapeURL env now c topUrl).res with _ | s1
    · exfalso
      have h2 := hres
      simp only [scrapeAndSearchTail, hsg, hout] at h2
      exact Option.noConfusion h2
    · by_cases he1 : s1.error.isSome
      · have hs : s = { s1 with error := some "Failed to scrape the content" } := by
          have h2 := hres
          simp only [scrapeAndSearchTail, hsg, hout, he1, if_true, Option.some.injEq] at h2
          exact h2.symm
        have hfields := scrapeURL_error_fields env now c topUrl hset hgood s1 hout
          (by rcases hs1 : s1.error with _ | e
              · rw [hs1] at he1
                exact absurd he1 (by simp)
              · simp [hs1])
        subst hs
        exact hfields
      · have hs : s = s1 := by
          have h2 := hres
          simp only [scrapeAndSearchTail, hsg, hout, he1, Bool.false_eq_true, if_false,
            Option.some.injEq] at h2
          exact h2.symm
        subst hs
        exact absurd (Option.not_isSome_iff_eq_none.mp he1) herr

/-! ### Claim C1 — the all-or-nothing error invariant

The claim as stated is false: the catch block of `scrapeURL` returns
`\x7b ...scrapedContent, error \x7d` (scraper.ts line 375), spreading the
record *already mutated* by the extraction steps, so an exception thrown
after field population — concretely, the structured-cache `redis.set` on
line 368 rejecting — yields a record with `error` set *and* populated
extracted fields.  When no cache write fails, the dichotomy holds. -/

/-- Claim C1, counterexample.  Under `setFailEnv` (the structured-cache
write rejects), `scrapeURL` returns a record with `error` set together
with a non-empty `title` — the partial-success state the claim rules
out. -/
theorem c1_counterexample :
    (scrapeURL setFailEnv 0 ⟨[]⟩ "u").res = some failedRec ∧
    failedRec.error ≠ none ∧ failedRec.title ≠ "" := by
  decide

/-- Claim C1, amended.  Provided cache writes never fail (and the cache
holds only records `scrapeURL` itself stored), every record returned by
`scrapeURL` or `scrapeAndSearch` with `error ≠ null` has empty `title`,
`metaDescription`, `headings.h1`, `headings.h2` and `content`. -/
theorem c1_invariant_amended (env : Env) (now : Nat) (c : Cache) (q : String)
    (hset : ∀ k, env.setFails k = false) (hgood : GoodCache c) :
    (∀ s, (scrapeURL env now c q).res = some s → s.error ≠ none →
      s.title = "" ∧ s.metaDescription = "" ∧ s.headings.h1 = "" ∧
        s.headings.h2 = "" ∧ s.content = "") ∧
    (∀ s, (scrapeAndSearch env now c q).res = some s → s.error ≠ none →
      s.title = "" ∧ s.metaDescription = "" ∧ s.headings.h1 = "" ∧
        s.headings.h2 = "" ∧ s.content = "") := by
  refine ⟨scrapeURL_error_fields env now c q hset hgood, ?_⟩
  intro s hres herr
  rcases hp : env.parseURL q with _ | u
  · have h2 := hres
    simp only [scrapeAndSearch, hp] at h2
    exact tail_error_fields env now c q Trace.zero hset hgood s h2 herr
  · have hsome := scrapeURL_res_isSome env now c u hgood
    rcases hout : (scrapeURL env now c u).res with _ | s1
    · rw [hout] at hsome
      exact absurd hsome (by simp)
    · have hs : s = s1 := by
        have h2 := hres
        simp only [scrapeAndSearch, hp, hout, Option.some.injEq] at h2
        exact h2.symm
      subst hs
      exact scrapeURL_error_fields env now c u hset hgood s hout herr

theorem c1_witness :
    (scrapeURL launchFailEnv 0 ⟨[]⟩ "u").res = some (emptySC "u" "Failed to scrape URL") ∧
    ((emptySC "u" "Failed to scrape URL").title = "" ∧
      (emptySC "u" "Failed to scrape URL").metaDescription = "" ∧
      (emptySC "u" "Failed to scrape URL").headings.h1 = "" ∧
      (emptySC "u" "Failed to scrape URL").headings.h2 = "" ∧
      (emptySC "u" "Failed to scrape URL").content = "") :=
  ⟨by decide,
   (c1_invariant_amended launchFailEnv 0 ⟨[]⟩ "u" (fun _ => rfl) goodCache_empty).1
     (emptySC "u" "Failed to scrape URL") (by decide) (by decide)⟩

/-! ### Claim C7 — orchestration of query versus URL -/

/-- Claim C7.  A query that does not parse as a URL always invokes the
search resolver, and when the resolver yields nothing the result is
exactly the no-results record with every other field empty and the cache
untouched; a query that parses as a URL delegates to `scrapeURL` without
any resolver invocation. -/
theorem c7_orchestrator (env : Env) (now : Nat) (c : Cache) (q : String)
    (hgood : GoodCache c) :
    (env.parseURL q = none →
      1 ≤ (scrapeAndSearch env now c q).tr.searchCalls ∧
      (searchGoogle env q = none →
        scrapeAndSearch env now c q =
          ⟨some ⟨"", "", ⟨"", ""⟩, "", "", some "No results found for the query"⟩, c,
           Trace.zero + searchTrace⟩)) ∧
    (∀ u, env.parseURL q = some u →
      scrapeAndSearch env now c q = scrapeURL env now c u ∧
      (scrapeAndSearch env now c q).tr.searchCalls = 0) := by
  constructor
  · intro hp
    constructor
    · rcases hsg : searchGoogle env q with _ | topUrl
      · simp [scrapeAndSearch, hp, scrapeAndSearchTail, hsg, Trace.add_searchCalls,
          searchTrace]
      · rcases hout : (scrapeURL env now c topUrl).res with _ | s1
        · simp only [scrapeAndSearch, hp, scrapeAndSearchTail, hsg, hout,
            Trace.add_searchCalls, searchTrace, Trace.zero]
          omega
        · by_cases he1 : s1.error.isSome
          · simp only [scrapeAndSearch, hp, scrapeAndSearchTail, hsg, hout, he1,
              if_true, Trace.add_searchCalls, searchTrace, Trace.zero]
            omega
          · simp only [scrapeAndSearch, hp, scrapeAndSearchTail, hsg, hout, he1,
              Bool.false_eq_true, if_false, Trace.add_searchCalls, searchTrace, Trace.zero]
            omega
    · intro hsg
      simp [scrapeAndSearch, hp, scrapeAndSearchTail, hsg, noResultsSC]
  · intro u hu
    have hdel := scrapeAndSearch_delegates env now c q u hgood hu
    refine ⟨hdel, ?_⟩
    rw [hdel]
    exact scrapeURL_searchCalls env now c u

/-- The delegation environment for the C7 and C10 witnesses: the WHATWG
URL normalization of `https://example.com` (with or without an
upper-cased scheme) is `https://example.com/`. -/
def delegEnv : Env :=
  { baseEnv with
    parseURL := fun q =>
      if q = "https://example.com" ∨ q = "HTTPS://example.com" ∨
          q = "https://example.com/" then
        some "https://example.com/"
      else none }

theorem c7_witness :
    scrapeAndSearch baseEnv 0 ⟨[]⟩ "some free text" =
      ⟨some ⟨"", "", ⟨"", ""⟩, "", "", some "No results found for the query"⟩, ⟨[]⟩,
       Trace.zero + searchTrace⟩ ∧
    scrapeAndSearch delegEnv 0 ⟨[]⟩ "https://example.com" =
      scrapeURL delegEnv 0 ⟨[]⟩ "https://example.com/" ∧
    (scrapeAndSearch delegEnv 0 ⟨[]⟩ "https://example.com").tr.searchCalls = 0 :=
  ⟨((c7_orchestrator baseEnv 0 ⟨[]⟩ "some free text" goodCache_empty).1 rfl).2 (by decide),
   ((c7_orchestrator delegEnv 0 ⟨[]⟩ "https://example.com" goodCache_empty).2
     "https://example.com/" (by decide)).1,
   ((c7_orchestrator delegEnv 0 ⟨[]⟩ "https://example.com" goodCache_empty).2
     "https://example.com/" (by decide)).2⟩

/-! ### Claim C10 — URL normalization of the cache key and result -/

/-- Claim C10.  When the query parses as an absolute URL, the pipeline runs
on the normalized `new URL(query).toString()` form `u`, not the raw query:
the whole call equals `scrapeURL` at `u` (so the structured-cache key is
built from `u`, and any two queries normalizing to the same `u` behave
identically), and the `url` field of every returned record is `u`. -/
theorem c10_normalization (env : Env) (now : Nat) (c : Cache) (q u : String)
    (hgood : GoodCache c) (hu : env.parseURL q = some u) :
    scrapeAndSearch env now c q = scrapeURL env now c u ∧
    ∀ s, (scrapeAndSearch env now c q).res = some s → s.url = u := by
  have hdel := scrapeAndSearch_delegates env now c q u hgood hu
  refine ⟨hdel, ?_⟩
  rw [hdel]
  exact scrapeURL_url_field env now c u hgood

theorem c10_witness :
    scrapeAndSearch delegEnv 0 ⟨[]⟩ "https://example.com" =
      scrapeURL delegEnv 0 ⟨[]⟩ "https://example.com/" ∧
    scrapeAndSearch delegEnv 0 ⟨[]⟩ "HTTPS://example.com" =
      scrapeAndSearch delegEnv 0 ⟨[]⟩ "https://example.com" ∧
    (scrapeAndSearch delegEnv 0 ⟨[]⟩ "https://example.com").res.map (fun s => s.url) =
      some "https://example.com/" := by
  refine ⟨(c10_normalization delegEnv 0 ⟨[]⟩ "https://example.com" "https://example.com/"
    goodCache_empty (by decide)).1, ?_, ?_⟩
  · rw [(c10_normalization delegEnv 0 ⟨[]⟩ "HTTPS://example.com" "https://example.com/"
      goodCache_empty (by decide)).1,
      (c10_normalization delegEnv 0 ⟨[]⟩ "https://example.com" "https://example.com/"
      goodCache_empty (by decide)).1]
  · rw [(c10_normalization delegEnv 0 ⟨[]⟩ "https://example.com" "https://example.com/"
      goodCache_empty (by decide)).1]
    decide

end Scraper
